import Mathlib

/-!
Verification of the `useAutoSizer` hook (`src/hooks/useAutoSizer.ts`) of the grid
repository: a column-width estimator plus a viewport-change coordinator.

The shallow embedding below translates the hook's logic into Lean:
* cell values are an abstract type `α`; a JS `null`/`undefined` value is `none`;
* the canvas `measureText` call is a function `α → Option TextMetrics`
  (`none` models a missing 2d context / unavailable measurement surface);
* `TextMetrics.width` is a rational, standing for the JS float; `Math.ceil`
  is `Rat.ceil` (proved equal to the mathematical ceiling `⌈·⌉` below);
* the `while (start < visibleRows)` loop is `widthLoop`, driven by a fuel
  argument that equals the number of remaining iterations, with the source's
  loop guard kept verbatim inside;
* React refs and state (`viewport`, `isMounted`) become an explicit
  `AutoSizerState` record threaded through `handleViewChange`;
* `tiny-invariant` is modelled as `Except`: it errors exactly on a falsy
  condition.
-/

namespace AutoSizer

/-- Cell coordinates, mirroring `CellInterface` from `Grid`. -/
structure CellInterface where
  rowIndex : Nat
  columnIndex : Nat
deriving DecidableEq, Repr

/-- The visible region of the grid, mirroring `ViewPortProps` from `Grid`. -/
structure ViewPortProps where
  rowStartIndex : Nat
  rowStopIndex : Nat
  columnStartIndex : Nat
  columnStopIndex : Nat
deriving DecidableEq, Repr

/-- The `ResizeStrategy` enum of `useAutoSizer.ts`. -/
inductive ResizeStrategy where
  | lazy
  | full
deriving DecidableEq, Repr

/-- Text metrics returned by the canvas 2d context: only `width` is read. -/
structure TextMetrics where
  width : ℚ
deriving DecidableEq, Repr

/-- The configuration props of `useAutoSizer` (`IProps` minus the functional
members `gridRef`/`getValue`, which are passed separately). Source defaults:
`initialVisibleRows = 20`, `cellSpacing = 10`, `minColumnWidth = 60`,
`timeout = 300`, `resizeStrategy = lazy`, `resizeOnScroll = true`,
`font = "12px Arial"`. -/
structure Config where
  initialVisibleRows : Nat
  cellSpacing : Int
  minColumnWidth : Int
  timeout : Nat
  resizeStrategy : ResizeStrategy
  rowCount : Option Nat
  resizeOnScroll : Bool
  font : String
deriving DecidableEq, Repr

/-- The source's default prop values gathered into one record. -/
def defaultConfig : Config :=
  ⟨20, 10, 60, 300, ResizeStrategy.lazy, none, true, "12px Arial"⟩

/-- Model of the `tiny-invariant` library call: it raises (here: returns an
error) exactly when the condition is falsy, and is a no-op otherwise. -/
def invariant (condition : Bool) (message : String) : Except String Unit :=
  if condition then Except.ok () else Except.error message

/-- Construction-time validation performed at the top of `useAutoSizer`:
`invariant(!(resizeStrategy === full && rowCount === void 0), ...)`.
An `Except.error` models the construction-time throw; on `Except.ok` the hook
body continues and returns total functions, so no later runtime fault. -/
def useAutoSizerInit (cfg : Config) : Except String Unit :=
  invariant
    (!(cfg.resizeStrategy == ResizeStrategy.full && cfg.rowCount == none))
    "Row count should be specified if resize stragtegy is full"

/-- The `visibleRows` local of `getColumnWidth`:
`resizeStrategy === full ? rowCount : rowStopIndex || initialVisibleRows`.
JS `||` returns the left operand when it is truthy, so a `rowStopIndex` of `0`
falls back to `initialVisibleRows` and any nonzero `rowStopIndex` is used
as-is.  (`rowCount as number` is defended by the construction invariant; a
missing count is mapped to `0`, under which the loop body never runs, matching
`start < undefined` being false in JS.) -/
def visibleRows (cfg : Config) (vp : ViewPortProps) : Nat :=
  match cfg.resizeStrategy with
  | ResizeStrategy.full => cfg.rowCount.getD 0
  | ResizeStrategy.lazy =>
      if vp.rowStopIndex = 0 then cfg.initialVisibleRows else vp.rowStopIndex

/-- One iteration body of the `while` loop of `getColumnWidth`: read the cell
value (`?? null` collapses `undefined` into `null`, both are `none` here); for
a non-null value ask the measurement provider; when metrics come back, the
candidate is `Math.ceil(metrics.width) + cellSpacing`, and the running maximum
is bumped when the candidate is strictly larger. -/
def candidateStep {α : Type} (getValue : CellInterface → Option α)
    (measureText : α → Option TextMetrics) (cellSpacing : Int)
    (columnIndex : Nat) (start : Nat) (maxWidth : Int) : Int :=
  match getValue ⟨start, columnIndex⟩ with
  | none => maxWidth
  | some value =>
      match measureText value with
      | none => maxWidth
      | some metrics =>
          let width := Rat.ceil metrics.width + cellSpacing
          if width > maxWidth then width else maxWidth

/-- The `while (start < visibleRows)` loop of `getColumnWidth`.  The first
argument is fuel (used only as a structural termination measure); the source's
guard `start < visibleRows` is kept verbatim, and the second component of the
result counts the iterations executed.  With fuel `visibleRows - start` the
fuel never runs out before the guard fails (proved in `widthLoop_eq_foldl`). -/
def widthLoop {α : Type} (getValue : CellInterface → Option α)
    (measureText : α → Option TextMetrics) (cellSpacing : Int)
    (columnIndex : Nat) (visRows : Nat) : Nat → Nat → Int → Int × Nat
  | 0, _, maxWidth => (maxWidth, 0)
  | fuel + 1, start, maxWidth =>
      if start < visRows then
        let p := widthLoop getValue measureText cellSpacing columnIndex visRows
          fuel (start + 1)
          (candidateStep getValue measureText cellSpacing columnIndex start maxWidth)
        (p.1, p.2 + 1)
      else (maxWidth, 0)

/-- The `getColumnWidth` callback: runs the sampling loop from
`viewport.rowStartIndex` with the running maximum initialized to
`minColumnWidth`; also exposes the number of loop iterations. -/
def getColumnWidthRun {α : Type} (cfg : Config) (vp : ViewPortProps)
    (getValue : CellInterface → Option α)
    (measureText : α → Option TextMetrics) (columnIndex : Nat) : Int × Nat :=
  let visRows := visibleRows cfg vp
  widthLoop getValue measureText cfg.cellSpacing columnIndex visRows
    (visRows - vp.rowStartIndex) vp.rowStartIndex cfg.minColumnWidth

/-- The width returned by `getColumnWidth`. -/
def getColumnWidth {α : Type} (cfg : Config) (vp : ViewPortProps)
    (getValue : CellInterface → Option α)
    (measureText : α → Option TextMetrics) (columnIndex : Nat) : Int :=
  (getColumnWidthRun cfg vp getValue measureText columnIndex).1

/-- The number of iterations the sampling loop of `getColumnWidth` performs. -/
def getColumnWidthIterationCount {α : Type} (cfg : Config) (vp : ViewPortProps)
    (getValue : CellInterface → Option α)
    (measureText : α → Option TextMetrics) (columnIndex : Nat) : Nat :=
  (getColumnWidthRun cfg vp getValue measureText columnIndex).2

/-- The row indices the loop visits: `rowStartIndex`, `rowStartIndex + 1`, …
up to (exclusive) the sampling bound `visibleRows`. -/
def sampledRows (cfg : Config) (vp : ViewPortProps) : List Nat :=
  List.range' vp.rowStartIndex (visibleRows cfg vp - vp.rowStartIndex) 1

/-- The hook state mutated by the coordinator: the cached viewport (React
state `viewport`) and the mounted flag (React ref `isMounted`). -/
structure AutoSizerState where
  viewport : ViewPortProps
  isMounted : Bool
deriving DecidableEq, Repr

/-- The initial hook state: a zero viewport, not yet mounted. -/
def initialState : AutoSizerState := ⟨⟨0, 0, 0, 0⟩, false⟩

/-- The mount effect `useEffect(() => { isMounted.current = true }, [])`:
runs once after the first render and only ever sets the flag to `true`. -/
def mountEffect (st : AutoSizerState) : AutoSizerState :=
  { st with isMounted := true }

/-- The `handleViewChange` callback.  `gridRefPresent` models whether
`gridRef.current` is non-null.  It first stores the new viewport
(`setViewport(cells)`) — the suppression test below reads the PREVIOUS
viewport, exactly as the source closure does — then decides whether to push a
cell into the debounced resizer.  The returned `Option CellInterface` is the
argument handed to `debounceResizer.current`, or `none` when the call is
suppressed (full strategy, `resizeOnScroll` off, unchanged start indices,
missing grid ref, or not yet mounted). -/
def handleViewChange (cfg : Config) (gridRefPresent : Bool)
    (st : AutoSizerState) (cells : ViewPortProps) :
    AutoSizerState × Option CellInterface :=
  let st' := { st with viewport := cells }
  if cfg.resizeStrategy = ResizeStrategy.full ∨ cfg.resizeOnScroll = false ∨
      (cells.rowStartIndex = st.viewport.rowStartIndex ∧
        cells.columnStartIndex = st.viewport.columnStartIndex) then
    (st', none)
  else if gridRefPresent then
    if st.isMounted = false then (st', none)
    else (st', some ⟨cells.rowStartIndex, cells.columnStartIndex⟩)
  else (st', none)

/-- A call into the debounced resizer: its arrival time and its argument. -/
structure DebounceCall where
  time : Nat
  args : CellInterface
deriving DecidableEq, Repr

/-- Modelled from the spec: the `debounce` helper imported from
`src/helpers` is not among the given sources.  Per the spec's debounce
contract, each call schedules a single trailing invocation of the wrapped
function (`gridRef.current.resetAfterIndices`) at `time + delay`; a
subsequent call arriving strictly within the delay window cancels and
reschedules that timer, so only the most recent arguments survive a burst.
Given the chronological list of calls, this returns the list of
`(firing time, arguments)` pairs that actually reach the host grid. -/
def debounceFirings (delay : Nat) : List DebounceCall → List (Nat × CellInterface)
  | [] => []
  | c :: rest =>
      match rest with
      | [] => [(c.time + delay, c.args)]
      | c2 :: _ =>
          if c2.time < c.time + delay then debounceFirings delay rest
          else (c.time + delay, c.args) :: debounceFirings delay rest

/-- Every consecutive pair of calls is strictly within the delay window. -/
def gapsWithin (delay : Nat) : List DebounceCall → Bool
  | c :: c2 :: rest => decide (c2.time < c.time + delay) && gapsWithin delay (c2 :: rest)
  | _ => true

/-- Folds a chronological sequence of timed viewport changes through
`handleViewChange`, collecting the calls pushed into the debounced resizer. -/
def collectSched (cfg : Config) (gridRefPresent : Bool) :
    AutoSizerState → List (Nat × ViewPortProps) → AutoSizerState × List DebounceCall
  | st, [] => (st, [])
  | st, (t, cells) :: rest =>
      let p := handleViewChange cfg gridRefPresent st cells
      let q := collectSched cfg gridRefPresent p.1 rest
      (q.1, (match p.2 with | some a => [⟨t, a⟩] | none => []) ++ q.2)

/-- Every change in the sequence passes the suppression test (its
`handleViewChange` call pushes into the debounced resizer). -/
def allScheduled (cfg : Config) (gridRefPresent : Bool) :
    AutoSizerState → List (Nat × ViewPortProps) → Bool
  | _, [] => true
  | st, (_, cells) :: rest =>
      let p := handleViewChange cfg gridRefPresent st cells
      p.2.isSome && allScheduled cfg gridRefPresent p.1 rest

/-- The `getColumnWidth` callback viewed as an operation on the whole hook
state (cached viewport, mounted flag, pending debounced call): the source
only reads `viewport` and the refs and performs no write, so the operation
returns the state it was given. -/
def getColumnWidthOp {α : Type} (cfg : Config)
    (getValue : CellInterface → Option α)
    (measureText : α → Option TextMetrics) (columnIndex : Nat)
    (st : AutoSizerState) (pending : Option DebounceCall) :
    Int × AutoSizerState × Option DebounceCall :=
  (getColumnWidth cfg st.viewport getValue measureText columnIndex, st, pending)

/-! Helper lemmas. -/

/-- Euclidean division of a negation when the divisor does not divide. -/
theorem neg_ediv_of_not_dvd {a b : Int} (hb : 0 < b) (h : ¬ b ∣ a) :
    -a / b = -(a / b) - 1 := by
  have h1 := Int.ediv_add_emod a b
  have h2 : 0 ≤ a % b := Int.emod_nonneg a (Int.ne_of_gt hb)
  have h3 : a % b < b := Int.emod_lt_of_pos a hb
  have h4 : a % b ≠ 0 := fun hz => h (Int.dvd_iff_emod_eq_zero.mpr hz)
  have key : (-a) / b = -(a / b) - 1 ∧ (-a) % b = b - a % b := by
    refine (Int.ediv_emod_unique hb).mpr ⟨?_, by omega, by omega⟩
    linear_combination -h1
  exact key.1

/-- The executable `Rat.ceil` used in the embedding is the mathematical
ceiling, so `Math.ceil(metrics.width)` is modelled faithfully. -/
theorem ratCeil_eq_intCeil (q : ℚ) : Rat.ceil q = ⌈q⌉ := by
  have hneg : ⌈q⌉ = -⌊-q⌋ := by
    have := Int.floor_neg (α := ℚ) (a := q)
    omega
  rw [hneg, Rat.floor_def, Rat.neg_num, Rat.neg_den]
  by_cases hd : q.den = 1
  · rw [Rat.ceil, if_pos hd, hd]
    simp
  · rw [Rat.ceil, if_neg hd]
    have hpos : (0 : Int) < (q.den : Int) := by exact_mod_cast q.den_pos
    have hnd : ¬ ((q.den : Int) ∣ q.num) := by
      intro hdvd
      have h1 : (q.den : Int).natAbs ∣ q.num.natAbs := Int.natAbs_dvd_natAbs.mpr hdvd
      rw [Int.natAbs_ofNat] at h1
      have h2 : q.den ∣ Nat.gcd q.num.natAbs q.den := Nat.dvd_gcd h1 dvd_rfl
      rw [q.reduced] at h2
      exact hd (Nat.dvd_one.mp h2)
    rw [neg_ediv_of_not_dvd hpos hnd]
    omega

/-- With fuel at least `visRows - start` the loop computes a left fold of the
iteration body over the visited row range and runs exactly `visRows - start`
iterations: the fuel never cuts the `while` loop short. -/
theorem widthLoop_eq_foldl {α : Type} (getValue : CellInterface → Option α)
    (measureText : α → Option TextMetrics) (cellSpacing : Int)
    (columnIndex : Nat) (visRows : Nat) (fuel : Nat) :
    ∀ (start : Nat) (acc : Int), visRows - start ≤ fuel →
      widthLoop getValue measureText cellSpacing columnIndex visRows fuel start acc
        = ((List.range' start (visRows - start) 1).foldl
            (fun a r => candidateStep getValue measureText cellSpacing columnIndex r a) acc,
          visRows - start) := by
  induction fuel with
  | zero =>
      intro start acc h
      have h0 : visRows - start = 0 := Nat.le_zero.mp h
      rw [widthLoop, h0]
      rfl
  | succ fuel ih =>
      intro start acc h
      rw [widthLoop]
      by_cases hs : start < visRows
      · rw [if_pos hs]
        have hn : visRows - start = (visRows - (start + 1)) + 1 := by omega
        rw [ih (start + 1)
          (candidateStep getValue measureText cellSpacing columnIndex start acc) (by omega)]
        rw [hn, List.range'_succ, List.foldl_cons]
      · rw [if_neg hs]
        have h0 : visRows - start = 0 := by omega
        rw [h0]
        rfl

/-- Running `getColumnWidth` folds the iteration body over `sampledRows`,
and the loop runs exactly `visibleRows - rowStartIndex` iterations. -/
theorem getColumnWidthRun_eq {α : Type} (cfg : Config) (vp : ViewPortProps)
    (getValue : CellInterface → Option α)
    (measureText : α → Option TextMetrics) (columnIndex : Nat) :
    getColumnWidthRun cfg vp getValue measureText columnIndex
      = ((sampledRows cfg vp).foldl
          (fun a r => candidateStep getValue measureText cfg.cellSpacing columnIndex r a)
          cfg.minColumnWidth,
        visibleRows cfg vp - vp.rowStartIndex) :=
  widthLoop_eq_foldl getValue measureText cfg.cellSpacing columnIndex
    (visibleRows cfg vp) (visibleRows cfg vp - vp.rowStartIndex)
    vp.rowStartIndex cfg.minColumnWidth (Nat.le_refl _)

/-- The iteration body never decreases the running maximum. -/
theorem candidateStep_le {α : Type} (getValue : CellInterface → Option α)
    (measureText : α → Option TextMetrics) (cellSpacing : Int)
    (columnIndex : Nat) (r : Nat) (a : Int) :
    a ≤ candidateStep getValue measureText cellSpacing columnIndex r a := by
  rcases hv : getValue ⟨r, columnIndex⟩ with _ | v
  · simp [candidateStep, hv]
  · rcases hm : measureText v with _ | metrics
    · simp [candidateStep, hv, hm]
    · simp only [candidateStep, hv, hm]
      split <;> omega

/-- A fold by a step that never decreases stays at or above the seed. -/
theorem le_foldl_of_le {β : Type} (f : Int → β → Int) (hf : ∀ a b, a ≤ f a b) :
    ∀ (l : List β) (acc : Int), acc ≤ l.foldl f acc
  | [], acc => le_refl acc
  | b :: l, acc => by
      rw [List.foldl_cons]
      exact le_trans (hf acc b) (le_foldl_of_le f hf l (f acc b))

/-- Folds of pointwise equal steps agree. -/
theorem foldl_congr_step {β : Type} {f g : Int → β → Int} :
    ∀ (l : List β), (∀ a b, b ∈ l → f a b = g a b) →
      ∀ acc : Int, l.foldl f acc = l.foldl g acc
  | [], _, _ => rfl
  | b :: l, h, acc => by
      rw [List.foldl_cons, List.foldl_cons, h acc b (List.mem_cons_self b l)]
      exact foldl_congr_step l (fun a b' hb' => h a b' (List.mem_cons_of_mem b hb')) _

/-- A fold whose step skips every element of the list returns the seed. -/
theorem foldl_const_of_skip {β : Type} (f : Int → β → Int) :
    ∀ (l : List β), (∀ a b, b ∈ l → f a b = a) →
      ∀ acc : Int, l.foldl f acc = acc
  | [], _, _ => rfl
  | b :: l, h, acc => by
      rw [List.foldl_cons, h acc b (List.mem_cons_self b l)]
      exact foldl_const_of_skip f l (fun a b' hb' => h a b' (List.mem_cons_of_mem b hb')) _

/-- Bumping the maximum only on a strictly larger candidate is `max`. -/
theorem if_gt_eq_max (a w : Int) : (if w > a then w else a) = max a w := by
  rw [max_def]
  split
  · split
    · rfl
    · omega
  · split
    · omega
    · rfl

/-- When the measurement provider always returns metrics, the iteration body
is `max` with the measured candidate on non-null values. -/
theorem candidateStep_total {α : Type} (getValue : CellInterface → Option α)
    (measureT : α → TextMetrics) (cellSpacing : Int)
    (columnIndex : Nat) (r : Nat) (a : Int) :
    candidateStep getValue (fun v => some (measureT v)) cellSpacing columnIndex r a
      = match getValue ⟨r, columnIndex⟩ with
        | none => a
        | some v => max a (⌈(measureT v).width⌉ + cellSpacing) := by
  rcases hv : getValue ⟨r, columnIndex⟩ with _ | v
  · simp [candidateStep, hv]
  · simp only [candidateStep, hv]
    rw [if_gt_eq_max, ratCeil_eq_intCeil]

/-- Folding a match-on-value step over rows is folding over the non-null
values only. -/
theorem foldl_step_filterMap {α : Type} (getValue : CellInterface → Option α)
    (w : α → Int) (columnIndex : Nat) :
    ∀ (l : List Nat) (acc : Int),
      l.foldl (fun a r =>
          match getValue ⟨r, columnIndex⟩ with
          | none => a
          | some v => max a (w v)) acc
        = (l.filterMap (fun r => getValue ⟨r, columnIndex⟩)).foldl
            (fun a v => max a (w v)) acc
  | [], _ => rfl
  | r :: l, acc => by
      cases hv : getValue ⟨r, columnIndex⟩ with
      | none =>
          rw [List.foldl_cons, List.filterMap_cons]
          rw [hv]
          simpa using foldl_step_filterMap getValue w columnIndex l acc
      | some v =>
          rw [List.foldl_cons, List.filterMap_cons]
          rw [hv]
          simpa using foldl_step_filterMap getValue w columnIndex l (max acc (w v))

/-- A `handleViewChange` call that pushes into the debounced resizer pushes
exactly the new viewport's start indices. -/
theorem handleViewChange_some {cfg : Config} {g : Bool} {st : AutoSizerState}
    {cells : ViewPortProps} :
    (handleViewChange cfg g st cells).2.isSome = true →
    (handleViewChange cfg g st cells).2
      = some ⟨cells.rowStartIndex, cells.columnStartIndex⟩ := by
  unfold handleViewChange
  split
  · intro h
    exact absurd h (by simp)
  · split
    · split
      · intro h
        exact absurd h (by simp)
      · intro _
        rfl
    · intro h
      exact absurd h (by simp)

/-- Consecutive calls strictly within the window leave only the trailing
firing, at the last call's time plus the delay, with the last arguments. -/
theorem debounceFirings_gaps (delay : Nat) :
    ∀ (es : List DebounceCall) (h : es ≠ []), gapsWithin delay es = true →
      debounceFirings delay es
        = [((es.getLast h).time + delay, (es.getLast h).args)]
  | [], h, _ => absurd rfl h
  | [c], _, _ => rfl
  | c :: c2 :: rest, _, hg => by
      have hg1 : c2.time < c.time + delay := by
        have := hg
        unfold gapsWithin at this
        simp only [Bool.and_eq_true, decide_eq_true_eq] at this
        exact this.1
      have hg2 : gapsWithin delay (c2 :: rest) = true := by
        have := hg
        unfold gapsWithin at this
        simp only [Bool.and_eq_true, decide_eq_true_eq] at this
        exact this.2
      rw [debounceFirings]
      rw [if_pos hg1]
      rw [List.getLast_cons (List.cons_ne_nil c2 rest)]
      exact debounceFirings_gaps delay (c2 :: rest) (List.cons_ne_nil c2 rest) hg2

/-- When every change passes the suppression test, the calls collected into
the debounced resizer are exactly the changes' times paired with each new
viewport's start indices. -/
theorem collectSched_of_allScheduled (cfg : Config) (g : Bool) :
    ∀ (st : AutoSizerState) (changes : List (Nat × ViewPortProps)),
      allScheduled cfg g st changes = true →
      (collectSched cfg g st changes).2
        = changes.map (fun tc =>
            ⟨tc.1, ⟨tc.2.rowStartIndex, tc.2.columnStartIndex⟩⟩)
  | _, [], _ => rfl
  | st, (t, cells) :: rest, h => by
      have h1 : (handleViewChange cfg g st cells).2.isSome = true := by
        have := h
        unfold allScheduled at this
        simp only [Bool.and_eq_true] at this
        exact this.1
      have h2 : allScheduled cfg g (handleViewChange cfg g st cells).1 rest = true := by
        have := h
        unfold allScheduled at this
        simp only [Bool.and_eq_true] at this
        exact this.2
      rw [collectSched]
      rw [List.map_cons]
      rw [handleViewChange_some h1]
      rw [collectSched_of_allScheduled cfg g (handleViewChange cfg g st cells).1 rest h2]
      rfl

/-- The width `getColumnWidth` returns is a left fold of the iteration body over the sampled rows. -/
theorem getColumnWidth_eq_foldl {α : Type} (cfg : Config) (vp : ViewPortProps)
    (getValue : CellInterface → Option α)
    (measureText : α → Option TextMetrics) (columnIndex : Nat) :
    getColumnWidth cfg vp getValue measureText columnIndex
      = (sampledRows cfg vp).foldl
          (fun a r => candidateStep getValue measureText cfg.cellSpacing columnIndex r a)
          cfg.minColumnWidth := by
  unfold getColumnWidth
  rw [getColumnWidthRun_eq]

/-- The sampling loop always runs exactly `visibleRows - rowStartIndex` times. -/
theorem getColumnWidthIterationCount_eq {α : Type} (cfg : Config) (vp : ViewPortProps)
    (getValue : CellInterface → Option α)
    (measureText : α → Option TextMetrics) (columnIndex : Nat) :
    getColumnWidthIterationCount cfg vp getValue measureText columnIndex
      = visibleRows cfg vp - vp.rowStartIndex := by
  unfold getColumnWidthIterationCount
  rw [getColumnWidthRun_eq]

/-- Restatement of `debounceFirings_gaps` through `getLast?`. -/
theorem debounceFirings_gaps_getLast? (delay : Nat) (es : List DebounceCall)
    (c : DebounceCall) (hlast : es.getLast? = some c)
    (hg : gapsWithin delay es = true) :
    debounceFirings delay es = [(c.time + delay, c.args)] := by
  have hne : es ≠ [] := by
    intro h
    rw [h] at hlast
    exact Option.noConfusion hlast
  rw [debounceFirings_gaps delay es hne hg]
  have hl : es.getLast hne = c := by
    rw [List.getLast?_eq_getLast es hne] at hlast
    exact Option.some.inj hlast
  rw [hl]

/-! Concrete data used by the witnesses and counterexamples. -/

/-- A small configuration (three sampled rows) for witness evaluation. -/
def witCfg : Config := ⟨3, 10, 60, 300, ResizeStrategy.lazy, none, true, "12px Arial"⟩

/-- A zero viewport: sampling falls back to `initialVisibleRows`. -/
def witVp : ViewPortProps := ⟨0, 0, 0, 0⟩

/-- A value accessor with every cell null. -/
def witValuesNone : CellInterface → Option String := fun _ => none

/-- A measurement provider returning a constant width of 100. -/
def witMeasure : String → Option TextMetrics := fun _ => some ⟨100⟩

/-- A viewport whose `rowStopIndex` is 5, below the default sample count 20. -/
def c2Vp : ViewPortProps := ⟨0, 5, 0, 0⟩

/-- A value accessor with a single non-null value at row 7. -/
def c2Values : CellInterface → Option String :=
  fun c => if c.rowIndex = 7 then some "wide" else none

/-! Claim theorems. -/

/-- C1: for every columnIndex, `columnWidth` returns the maximum of
`minimumColumnWidth` and, over every sampled row whose value is non-null,
`⌈metrics.width⌉ + cellSpacingMargin` (first conjunct, stated for a
measurement provider that always returns metrics); consequently the result is
never below `minimumColumnWidth` (second conjunct, for any provider), and when
no non-null value is sampled — all values null, or the sample range empty —
it is exactly `minimumColumnWidth` (third conjunct). -/
theorem C1_columnWidth_max_of_samples {α : Type} (cfg : Config) (vp : ViewPortProps)
    (getValue : CellInterface → Option α) (measureText : α → Option TextMetrics)
    (measureT : α → TextMetrics) (columnIndex : Nat) :
    getColumnWidth cfg vp getValue (fun v => some (measureT v)) columnIndex
      = ((sampledRows cfg vp).filterMap (fun r => getValue ⟨r, columnIndex⟩)).foldl
          (fun a v => max a (⌈(measureT v).width⌉ + cfg.cellSpacing))
          cfg.minColumnWidth
    ∧ cfg.minColumnWidth ≤ getColumnWidth cfg vp getValue measureText columnIndex
    ∧ ((∀ r ∈ sampledRows cfg vp, getValue ⟨r, columnIndex⟩ = none) →
        getColumnWidth cfg vp getValue measureText columnIndex = cfg.minColumnWidth) := by
  refine ⟨?_, ?_, ?_⟩
  · calc getColumnWidth cfg vp getValue (fun v => some (measureT v)) columnIndex
        = (sampledRows cfg vp).foldl
            (fun a r => candidateStep getValue (fun v => some (measureT v))
              cfg.cellSpacing columnIndex r a)
            cfg.minColumnWidth :=
          getColumnWidth_eq_foldl cfg vp getValue (fun v => some (measureT v)) columnIndex
      _ = (sampledRows cfg vp).foldl
            (fun a r =>
              match getValue ⟨r, columnIndex⟩ with
              | none => a
              | some v => max a (⌈(measureT v).width⌉ + cfg.cellSpacing))
            cfg.minColumnWidth :=
          foldl_congr_step (sampledRows cfg vp)
            (fun a r _ =>
              candidateStep_total getValue measureT cfg.cellSpacing columnIndex r a)
            cfg.minColumnWidth
      _ = ((sampledRows cfg vp).filterMap (fun r => getValue ⟨r, columnIndex⟩)).foldl
            (fun a v => max a (⌈(measureT v).width⌉ + cfg.cellSpacing))
            cfg.minColumnWidth :=
          foldl_step_filterMap getValue
            (fun v => ⌈(measureT v).width⌉ + cfg.cellSpacing) columnIndex
            (sampledRows cfg vp) cfg.minColumnWidth
  · rw [getColumnWidth_eq_foldl]
    exact le_foldl_of_le _
      (fun a r => candidateStep_le getValue measureText cfg.cellSpacing columnIndex r a)
      (sampledRows cfg vp) cfg.minColumnWidth
  · intro hnull
    rw [getColumnWidth_eq_foldl]
    refine foldl_const_of_skip _ (sampledRows cfg vp) (fun a r hr => ?_) cfg.minColumnWidth
    simp [candidateStep, hnull r hr]

/-- Witness for C1 at a concrete all-null input: every sampled value is null
and the width evaluates to exactly the minimum floor of 60. -/
theorem C1_witness :
    getColumnWidth witCfg witVp witValuesNone witMeasure 0 = witCfg.minColumnWidth :=
  (C1_columnWidth_max_of_samples witCfg witVp witValuesNone witMeasure
    (fun _ => TextMetrics.mk 100) 0).2.2 (by decide)

/-- C2 counterexample: with the lazy strategy, `rowStopIndex = 5`, and the
default `initialVisibleRows = 20`, the code's exclusive sampling bound is
`rowStopIndex || initialVisibleRows` = 5, not max(5, 20) = 20 as claimed: the
non-null value at row 7 — inside the claimed bound — is never sampled, and the
width stays at the 60 floor instead of becoming ⌈100⌉ + 10 = 110. -/
theorem C2_counterexample :
    visibleRows defaultConfig c2Vp = 5
    ∧ max c2Vp.rowStopIndex defaultConfig.initialVisibleRows = 20
    ∧ getColumnWidth defaultConfig c2Vp c2Values witMeasure 0 = 60 := by
  decide

/-- C2 (amended): with `resizeStrategy ≠ full` the exclusive sampling bound is
`rowStopIndex` when it is nonzero and `initialVisibleRowSampleCount` otherwise
(JS `rowStopIndex || initialVisibleRows`); with `resizeStrategy = full` it is
`totalRowCount`. Sampling starts at `viewport.rowStartIndex` in both cases:
the loop folds over exactly the rows in [rowStartIndex, bound). -/
theorem C2_amended_sampling_bound {α : Type} (cfg : Config) (vp : ViewPortProps)
    (getValue : CellInterface → Option α) (measureText : α → Option TextMetrics)
    (columnIndex : Nat) :
    (cfg.resizeStrategy ≠ ResizeStrategy.full →
      visibleRows cfg vp
        = if vp.rowStopIndex = 0 then cfg.initialVisibleRows else vp.rowStopIndex)
    ∧ (∀ n : Nat, cfg.resizeStrategy = ResizeStrategy.full → cfg.rowCount = some n →
        visibleRows cfg vp = n)
    ∧ getColumnWidth cfg vp getValue measureText columnIndex
        = (List.range' vp.rowStartIndex (visibleRows cfg vp - vp.rowStartIndex) 1).foldl
            (fun a r => candidateStep getValue measureText cfg.cellSpacing columnIndex r a)
            cfg.minColumnWidth := by
  refine ⟨?_, ?_, ?_⟩
  · intro h
    cases hcs : cfg.resizeStrategy
    · simp [visibleRows, hcs]
    · exact absurd hcs h
  · intro n hs hn
    simp [visibleRows, hs, hn]
  · exact getColumnWidth_eq_foldl cfg vp getValue measureText columnIndex

/-- Witness for C2 (amended) at the counterexample viewport: the bound
evaluates to `rowStopIndex` = 5. -/
theorem C2_amended_witness : visibleRows defaultConfig c2Vp = 5 :=
  (C2_amended_sampling_bound defaultConfig c2Vp c2Values witMeasure 0).1 (by decide)

/-- C3: a call to `onViewportChange` whose rowStartIndex and columnStartIndex
both equal the cached viewport's never schedules a re-layout call — for every
strategy, mount state, and grid ref, and in particular even when the stop
indices differ from the cached ones. -/
theorem C3_unchanged_start_never_schedules (cfg : Config) (g : Bool)
    (st : AutoSizerState) (cells : ViewPortProps)
    (hr : cells.rowStartIndex = st.viewport.rowStartIndex)
    (hc : cells.columnStartIndex = st.viewport.columnStartIndex) :
    (handleViewChange cfg g st cells).2 = none := by
  unfold handleViewChange
  rw [if_pos (Or.inr (Or.inr ⟨hr, hc⟩))]

/-- Witness for C3: same start indices but different stop indices, while
mounted, lazy, scroll-recalculation on, and the grid ref present — still no
re-layout call. -/
theorem C3_witness :
    (handleViewChange defaultConfig true ⟨⟨0, 0, 0, 0⟩, true⟩ ⟨0, 9, 0, 9⟩).2 = none :=
  C3_unchanged_start_never_schedules defaultConfig true ⟨⟨0, 0, 0, 0⟩, true⟩
    ⟨0, 9, 0, 9⟩ rfl rfl

/-- C4: when `onViewportChange` is called N ≥ 1 times (`last` being the Nth
call), every call passing the suppression test, and each call strictly within
`debounceDelayMs` of the previous one, exactly one re-layout call fires: it
carries the rowStartIndex and columnStartIndex of the last call, and its
firing time is the last call's time plus the full delay — so it does not fire
before the delay has elapsed after the last call. -/
theorem C4_debounce_single_trailing_firing (cfg : Config) (g : Bool)
    (st0 : AutoSizerState) (changes : List (Nat × ViewPortProps))
    (last : Nat × ViewPortProps) (hlast : changes.getLast? = some last)
    (hall : allScheduled cfg g st0 changes = true)
    (hgaps : gapsWithin cfg.timeout (collectSched cfg g st0 changes).2 = true) :
    debounceFirings cfg.timeout (collectSched cfg g st0 changes).2
      = [(last.1 + cfg.timeout,
          ⟨last.2.rowStartIndex, last.2.columnStartIndex⟩)] := by
  have hmap := collectSched_of_allScheduled cfg g st0 changes hall
  refine debounceFirings_gaps_getLast? cfg.timeout _
    ⟨last.1, ⟨last.2.rowStartIndex, last.2.columnStartIndex⟩⟩ ?_ hgaps
  rw [hmap, List.getLast?_map, hlast]
  rfl

/-- Witness for C4: two qualifying calls at times 0 and 100 with delay 300
collapse into the single firing (400, row 2, column 0). -/
theorem C4_witness :
    debounceFirings witCfg.timeout
        (collectSched witCfg true ⟨⟨0, 0, 0, 0⟩, true⟩
          [(0, ⟨1, 5, 0, 5⟩), (100, ⟨2, 6, 0, 6⟩)]).2
      = [(400, ⟨2, 0⟩)] :=
  C4_debounce_single_trailing_firing witCfg true ⟨⟨0, 0, 0, 0⟩, true⟩
    [(0, ⟨1, 5, 0, 5⟩), (100, ⟨2, 6, 0, 6⟩)] (100, ⟨2, 6, 0, 6⟩)
    (by decide) (by decide) (by decide)

/-- C5: construction fails — with the construction-time error, never a later
fault or a silent default — iff `resizeStrategy = full` and `totalRowCount`
is undefined; every other combination succeeds. -/
theorem C5_construction_iff (cfg : Config) :
    (useAutoSizerInit cfg
        = Except.error "Row count should be specified if resize stragtegy is full"
      ↔ (cfg.resizeStrategy = ResizeStrategy.full ∧ cfg.rowCount = none))
    ∧ (useAutoSizerInit cfg = Except.ok ()
      ↔ ¬(cfg.resizeStrategy = ResizeStrategy.full ∧ cfg.rowCount = none)) := by
  unfold useAutoSizerInit invariant
  by_cases h : cfg.resizeStrategy = ResizeStrategy.full ∧ cfg.rowCount = none
  · have hb : (!(cfg.resizeStrategy == ResizeStrategy.full && cfg.rowCount == none))
        = false := by
      simp [h.1, h.2]
    rw [hb]
    simp [h]
  · have hb : (!(cfg.resizeStrategy == ResizeStrategy.full && cfg.rowCount == none))
        = true := by
      simp only [Bool.not_eq_true', Bool.and_eq_false_iff, beq_eq_false_iff_ne, ne_eq]
      rcases Decidable.not_and_iff_or_not.mp h with h1 | h1
      · exact Or.inl h1
      · exact Or.inr h1
    rw [hb]
    simp [h]

/-- Witness for C5: the full strategy without a row count yields exactly the
construction error. -/
theorem C5_witness :
    useAutoSizerInit ⟨20, 10, 60, 300, ResizeStrategy.full, none, true, "12px Arial"⟩
      = Except.error "Row count should be specified if resize stragtegy is full" :=
  (C5_construction_iff ⟨20, 10, 60, 300, ResizeStrategy.full, none, true, "12px Arial"⟩).1.mpr
    ⟨rfl, rfl⟩

/-- C6: every call to `onViewportChange` replaces the cached viewport with the
new viewport, unconditionally — the universally quantified state and grid-ref
flag cover suppressed calls (full strategy, scroll recalculation off,
unchanged start indices, not yet mounted) and calls with the grid ref absent;
the suppression test itself reads only the previous cached viewport, as the
source evaluates it after `setViewport`. -/
theorem C6_viewport_always_replaced (cfg : Config) (g : Bool)
    (st : AutoSizerState) (cells : ViewPortProps) :
    (handleViewChange cfg g st cells).1.viewport = cells := by
  unfold handleViewChange
  dsimp only
  split
  · rfl
  · split
    · split <;> rfl
    · rfl

/-- C7: the mounted flag is one-way and set exactly once — the mount effect
sets it, running it again changes nothing, and viewport changes preserve it;
while unmounted no viewport change schedules a re-layout call; once mounted, a
qualifying change (some start index changed, lazy strategy, scroll
recalculation on, grid ref present) schedules one with the new start
indices. -/
theorem C7_mount_lifecycle (cfg : Config) (g : Bool) (st : AutoSizerState)
    (cells : ViewPortProps) :
    (mountEffect st).isMounted = true
    ∧ mountEffect (mountEffect st) = mountEffect st
    ∧ (handleViewChange cfg g st cells).1.isMounted = st.isMounted
    ∧ (st.isMounted = false → (handleViewChange cfg g st cells).2 = none)
    ∧ (st.isMounted = true → cfg.resizeStrategy = ResizeStrategy.lazy →
        cfg.resizeOnScroll = true → g = true →
        (cells.rowStartIndex ≠ st.viewport.rowStartIndex ∨
          cells.columnStartIndex ≠ st.viewport.columnStartIndex) →
        (handleViewChange cfg g st cells).2
          = some ⟨cells.rowStartIndex, cells.columnStartIndex⟩) := by
  refine ⟨rfl, rfl, ?_, ?_, ?_⟩
  · unfold handleViewChange
    dsimp only
    split
    · rfl
    · split
      · split <;> rfl
      · rfl
  · intro hm
    unfold handleViewChange
    dsimp only
    split
    · rfl
    · split <;> rfl
  · intro hm hs hr hg hstart
    have hcond : ¬(cfg.resizeStrategy = ResizeStrategy.full ∨
        cfg.resizeOnScroll = false ∨
        (cells.rowStartIndex = st.viewport.rowStartIndex ∧
          cells.columnStartIndex = st.viewport.columnStartIndex)) := by
      intro hor
      rcases hor with h1 | h1 | h1
      · rw [hs] at h1
        exact ResizeStrategy.noConfusion h1
      · rw [hr] at h1
        exact Bool.noConfusion h1
      · rcases hstart with h | h
        · exact h h1.1
        · exact h h1.2
    unfold handleViewChange
    dsimp only
    rw [if_neg hcond, if_pos hg, if_neg (by rw [hm]; exact fun h => Bool.noConfusion h)]

/-- Witness for C7: mounted state, lazy strategy, scroll recalculation on,
grid ref present, and a changed rowStartIndex — the re-layout call is
scheduled with the new start indices (1, 0). -/
theorem C7_witness :
    (handleViewChange witCfg true ⟨⟨0, 0, 0, 0⟩, true⟩ ⟨1, 5, 0, 5⟩).2
      = some ⟨1, 0⟩ :=
  (C7_mount_lifecycle witCfg true ⟨⟨0, 0, 0, 0⟩, true⟩ ⟨1, 5, 0, 5⟩).2.2.2.2
    rfl rfl rfl rfl (Or.inl (by decide))

/-- C8: a sampled non-null value for which the measurement provider returns no
metrics is skipped exactly as if the value were null: the width equals the one
computed when the accessor nulls out every unmeasurable value, so the loop
continues over the remaining rows unchanged; the embedding is a total
function, so no error is raised. -/
theorem C8_missing_metrics_skipped {α : Type} (cfg : Config) (vp : ViewPortProps)
    (getValue : CellInterface → Option α)
    (measureText : α → Option TextMetrics) (columnIndex : Nat) :
    getColumnWidth cfg vp getValue measureText columnIndex
      = getColumnWidth cfg vp
          (fun c =>
            match getValue c with
            | none => none
            | some v => if (measureText v).isSome then some v else none)
          measureText columnIndex := by
  rw [getColumnWidth_eq_foldl, getColumnWidth_eq_foldl]
  apply foldl_congr_step
  intro a r _
  rcases hv : getValue ⟨r, columnIndex⟩ with _ | v
  · simp [candidateStep, hv]
  · rcases hm : measureText v with _ | metrics
    · simp [candidateStep, hv, hm]
    · simp [candidateStep, hv, hm]

/-- C9: `columnWidth` is deterministic and side-effect-free: two calls that
agree on the sampled values of the queried column — agreement is required
only at the rows the loop actually visits, `sampledRows`, not elsewhere —
and on every measurement result (same font) return equal widths, and the
operation leaves the cached viewport, the mounted flag, and any pending
debounced call untouched. -/
theorem C9_columnWidth_pure {α : Type} (cfg : Config) (st : AutoSizerState)
    (pending : Option DebounceCall)
    (getValue getValue2 : CellInterface → Option α)
    (measureText measureText2 : α → Option TextMetrics) (columnIndex : Nat)
    (hg : ∀ r ∈ sampledRows cfg st.viewport,
        getValue ⟨r, columnIndex⟩ = getValue2 ⟨r, columnIndex⟩)
    (hm : ∀ v : α, measureText v = measureText2 v) :
    getColumnWidth cfg st.viewport getValue measureText columnIndex
      = getColumnWidth cfg st.viewport getValue2 measureText2 columnIndex
    ∧ getColumnWidthOp cfg getValue measureText columnIndex st pending
      = (getColumnWidth cfg st.viewport getValue measureText columnIndex,
          st, pending) := by
  refine ⟨?_, rfl⟩
  rw [getColumnWidth_eq_foldl, getColumnWidth_eq_foldl]
  apply foldl_congr_step
  intro a r hr
  have hgr := hg r hr
  rcases hv : getValue ⟨r, columnIndex⟩ with _ | v
  · rw [hv] at hgr
    simp [candidateStep, hv, ← hgr]
  · rw [hv] at hgr
    simp [candidateStep, hv, ← hgr, hm v]

/-- A value accessor: "ab" at row 1, null elsewhere. -/
def witValuesA : CellInterface → Option String :=
  fun c => if c.rowIndex = 1 then some "ab" else none

/-- A value accessor agreeing with `witValuesA` on the sampled rows 0, 1, 2
of `witCfg`/`witVp` but differing at the off-sample row 5. -/
def witValuesB : CellInterface → Option String :=
  fun c =>
    if c.rowIndex = 1 then some "ab"
    else if c.rowIndex = 5 then some "off sample" else none

/-- Witness for C9 at a concrete input: the two accessors are different
functions — they disagree at row 5 — but agree on the sampled rows 0, 1, 2,
so the two runs return equal widths, and the state passes through
unchanged. -/
theorem C9_witness :
    getColumnWidth witCfg witVp witValuesA witMeasure 0
      = getColumnWidth witCfg witVp witValuesB witMeasure 0
    ∧ getColumnWidthOp witCfg witValuesA witMeasure 0 ⟨witVp, true⟩ none
      = (getColumnWidth witCfg witVp witValuesA witMeasure 0,
          ⟨witVp, true⟩, none) :=
  C9_columnWidth_pure witCfg ⟨witVp, true⟩ none witValuesA witValuesB
    witMeasure witMeasure 0 (by decide) (fun _ => rfl)

/-- C10: the sampling loop terminates for every cached viewport and
configuration — the embedding is total, with the fuel provably never cutting
the source's `while` loop short (`widthLoop_eq_foldl`) — and performs exactly
max(0, bound − rowStartIndex) iterations: zero when `rowStartIndex` is at or
beyond the bound. -/
theorem C10_loop_iterations {α : Type} (cfg : Config) (vp : ViewPortProps)
    (getValue : CellInterface → Option α)
    (measureText : α → Option TextMetrics) (columnIndex : Nat) :
    (getColumnWidthIterationCount cfg vp getValue measureText columnIndex : Int)
      = max 0 ((visibleRows cfg vp : Int) - (vp.rowStartIndex : Int)) := by
  rw [getColumnWidthIterationCount_eq, max_def]
  split <;> omega

end AutoSizer
